import Mathlib

/-!
Verification of the OpenOrganelle dataset model and neuroglancer viewer-state
compiler (`src/components/Navigation.tsx`, `NeuroglancerLink`, the legacy
catalog loader, and `DatasetPaper.tsx`), shallowly embedded in Lean.

JavaScript finite numbers are idealized as rationals (`ℚ`); the special
values `undefined` and `NaN`, which the transform code can produce through
out-of-bounds array reads and arithmetic on them, are modelled explicitly by
the `JSVal` type.
-/

namespace OpenOrganelle

/-- A JavaScript value flowing through the numeric parts of the code:
either a finite number (idealized as a rational), `NaN`, or `undefined`
(the result of reading a JS array out of bounds). -/
inductive JSVal where
  | undef : JSVal
  | nan : JSVal
  | num : ℚ → JSVal
  deriving DecidableEq

/-- JS array indexing `xs[i]` for an integer index: out-of-bounds (including
negative) access yields `undefined`. -/
def arrGet (xs : List ℚ) (i : ℤ) : JSVal :=
  if h : 0 ≤ i ∧ i.toNat < xs.length then JSVal.num (xs.get ⟨i.toNat, h.2⟩) else JSVal.undef

/-- JS `Array.prototype.indexOf`: the index of the first occurrence, `-1`
when the element is absent. -/
def jsIndexOf (xs : List String) (l : String) : ℤ :=
  match List.findIdx? (fun a => a == l) xs with
  | some n => (n : ℤ)
  | none => -1

/-- JS `Math.abs`: `Math.abs(undefined)` and `Math.abs(NaN)` are `NaN`. -/
def jsAbs (v : JSVal) : JSVal :=
  match v with
  | JSVal.num q => JSVal.num (abs q)
  | _ => JSVal.nan

/-- JS multiplication: any operand that is not a finite number gives `NaN`
(`undefined` is coerced to `NaN`). -/
def jsMul (a b : JSVal) : JSVal :=
  match a, b with
  | JSVal.num p, JSVal.num q => JSVal.num (p * q)
  | _, _ => JSVal.nan

/-- JS comparison `v < 0`: false when `v` is `NaN` or `undefined`
(both coerce to `NaN`, and every comparison with `NaN` is false). -/
def jsLtZero (v : JSVal) : Bool :=
  match v with
  | JSVal.num q => decide (q < 0)
  | _ => false

/-- JS `Math.min` of two values: `NaN` as soon as either argument fails to
be a finite number (`undefined` is coerced to `NaN`). -/
def jsMin (a b : JSVal) : JSVal :=
  match a, b with
  | JSVal.num p, JSVal.num q => JSVal.num (min p q)
  | _, _ => JSVal.nan

/-- JS coercion of an optional field read: a present value is a number, an
absent one is `undefined`. -/
def jsValOfOpt (o : Option ℚ) : JSVal :=
  match o with
  | some q => JSVal.num q
  | none => JSVal.undef

/-- JS `.toString()` on a numeric value.  On integers it agrees with JS
number formatting (`"4"`, `"-1"`); `NaN` prints `"NaN"`, `undefined`
stringifies to `"undefined"`.  (Non-integer rationals print as fractions,
a formatting divergence from JS decimals that no claim relies on.) -/
def jsToString (v : JSVal) : String :=
  match v with
  | JSVal.num q => toString q
  | JSVal.nan => "NaN"
  | JSVal.undef => "undefined"

/-- `SpatialTransform` from the manifest module: ordered axis labels with
per-axis units, translate offsets and (signed) scales. -/
structure SpatialTransform where
  axes : List String
  units : List String
  translate : List ℚ
  scale : List ℚ
  deriving DecidableEq

/-- A neuroglancer `CoordinateSpace`: per-axis `[scale, unit]` pairs for the
three axes `x`, `y`, `z`. -/
structure CoordinateSpace where
  x : JSVal × String
  y : JSVal × String
  z : JSVal × String
  deriving DecidableEq

/-- A neuroglancer `CoordinateSpaceTransform`: a 3×4 matrix (as a list of
rows) together with output and input coordinate spaces. -/
structure CoordinateSpaceTransform where
  matrix : List (List JSVal)
  outputDimensions : CoordinateSpace
  inputDimensions : CoordinateSpace
  deriving DecidableEq

/-- The literal `1e-9` (one nanometer in meters). -/
def nmScale : ℚ := 1 / 1000000000

/-- `SpatialTransformToNeuroglancer` from `Navigation.tsx`: per axis label,
the input dimension is `1e-9 * Math.abs(scale[axes.indexOf(label)])`, the
matrix diagonal entry is `-1` when `scale[axes.indexOf(label)] < 0` and `1`
otherwise, and the last matrix column is `translate[axes.indexOf(label)]`
unchanged. -/
def SpatialTransformToNeuroglancer (transform : SpatialTransform)
    (outputDimensions : CoordinateSpace) : CoordinateSpaceTransform :=
  let ix := jsIndexOf transform.axes "x"
  let iy := jsIndexOf transform.axes "y"
  let iz := jsIndexOf transform.axes "z"
  let inputDimensions : CoordinateSpace :=
    { x := (jsMul (JSVal.num nmScale) (jsAbs (arrGet transform.scale ix)), "m"),
      y := (jsMul (JSVal.num nmScale) (jsAbs (arrGet transform.scale iy)), "m"),
      z := (jsMul (JSVal.num nmScale) (jsAbs (arrGet transform.scale iz)), "m") }
  { matrix :=
      [ [if jsLtZero (arrGet transform.scale ix) then JSVal.num (-1) else JSVal.num 1,
         JSVal.num 0, JSVal.num 0, arrGet transform.translate ix],
        [JSVal.num 0,
         if jsLtZero (arrGet transform.scale iy) then JSVal.num (-1) else JSVal.num 1,
         JSVal.num 0, arrGet transform.translate iy],
        [JSVal.num 0, JSVal.num 0,
         if jsLtZero (arrGet transform.scale iz) then JSVal.num (-1) else JSVal.num 1,
         arrGet transform.translate iz] ],
    outputDimensions := outputDimensions,
    inputDimensions := inputDimensions }

/-- The constant `nm` from `Navigation.tsx`: one nanometer as a scaled meter. -/
def nm : JSVal × String := (JSVal.num nmScale, "m")

/-- The fixed output coordinate space used for all layers. -/
def outputDimensions : CoordinateSpace := { x := nm, y := nm, z := nm }

/-- Entry `(r, c)` of the transform matrix (row-major). -/
def matrixEntry (ct : CoordinateSpaceTransform) (r c : ℕ) : JSVal :=
  (ct.matrix.getD r []).getD c JSVal.undef

/-- The mathematical sign function, following the spec's wording
`sign(scale_axis)` (so `specSign 0 = 0`). -/
def specSign (q : ℚ) : ℚ :=
  if q < 0 then -1 else if q = 0 then 0 else 1

/-- The `contrastLimits` record of the manifest's `DisplaySettings`.  The
source field `end` is a Lean keyword and is rendered here as `endVal`. -/
structure ContrastLimits where
  min : ℚ
  max : ℚ
  start : ℚ
  endVal : ℚ
  deriving DecidableEq

/-- `DisplaySettings` from the manifest module, as used by `makeShader` and
`makeLayer`: contrast limits, LUT inversion flag, and an optional color
(read with `?? undefined` in `makeLayer`). -/
structure DisplaySettings where
  contrastLimits : ContrastLimits
  invertLUT : Bool
  color : Option String
  deriving DecidableEq

/-- JS template-literal interpolation of a possibly-undefined string value
(`undefined` interpolates as the text `"undefined"`). -/
def jsInterpolate (o : Option String) : String :=
  match o with
  | some s => s
  | none => "undefined"

/-- `makeShader` from `Navigation.tsx`: a total function of display settings
and sample type.  `"scalar"` produces the parameterized shader program of the
source template literal (whitespace reproduced; numeric interpolation
idealized by `ℚ` formatting), `"label"` produces the empty string, and every
other sample type produces `undefined` (modelled as `none`). -/
def makeShader (shaderArgs : DisplaySettings) (sampleType : String) : Option String :=
  match sampleType with
  | "scalar" =>
    let lower := shaderArgs.contrastLimits.min
    let upper := shaderArgs.contrastLimits.max
    let cmin := shaderArgs.contrastLimits.start
    let cmax := shaderArgs.contrastLimits.endVal
    some ("#uicontrol invlerp normalized(range=[" ++ toString cmin ++ ", " ++ toString cmax ++
      "], window=[" ++ toString lower ++ ", " ++ toString upper ++ "])\n        " ++
      "#uicontrol int invertColormap slider(min=0, max=1, step=1, default=" ++
      (if shaderArgs.invertLUT then "1" else "0") ++ ")\n        " ++
      "#uicontrol vec3 color color(default=\"" ++ jsInterpolate shaderArgs.color ++
      "\")\n        float inverter(float val, int invert) \x7breturn 0.5 + ((2.0 * (-float(invert) + 0.5)) * (val - 0.5));\x7d\n          void main() \x7b\n          emitRGB(color * inverter(normalized(), invertColormap));\n        \x7d")
  | "label" => some ""
  | _ => none

set_option maxHeartbeats 2000000 in

/-- `MeshSource` from the manifest module, as used by `makeLayer`:
a URL, its own spatial transform, and a list of segment ids. -/
structure MeshSource where
  url : String
  transform : SpatialTransform
  ids : List ℕ
  deriving DecidableEq

/-- `VolumeSource` from the manifest module (the `Volume` class copies these
fields verbatim): source locator, name, spatial transform, content and
sample type classifications (kept as strings, the TS union types), store
format, display settings, description and mesh subsources. -/
structure VolumeSource where
  url : String
  name : String
  transform : SpatialTransform
  contentType : String
  sampleType : String
  format : String
  displaySettings : DisplaySettings
  description : String
  subsources : List MeshSource
  deriving DecidableEq

/-- `LayerDataSource2` from `Navigation.tsx`: a layer data source carrying a
URL and the coordinate-space transform. -/
structure LayerDataSource2 where
  url : String
  transform : CoordinateSpaceTransform
  deriving DecidableEq

/-- The two layer kinds the code constructs (`ImageLayer` /
`SegmentationLayer` of the external viewer library), with the fields the
repository sets: image layers carry name, source, opacity, blend mode and
optional shader; segmentation layers carry name, sources, optional segment
ids and optional color — the repository never passes an opacity to a
segmentation layer's constructor. -/
inductive Layer where
  | image (name : String) (source : LayerDataSource2) (opacity : ℚ) (blend : String)
      (shader : Option String) : Layer
  | segmentation (name : String) (sources : List LayerDataSource2)
      (segments : Option (List ℕ)) (color : Option String) : Layer
  deriving DecidableEq

/-- The layer's display name. -/
def layerName : Layer → String
  | Layer.image n _ _ _ _ => n
  | Layer.segmentation n _ _ _ => n

/-- The layer's opacity: set only on image layers. -/
def layerOpacity : Layer → Option ℚ
  | Layer.image _ _ o _ _ => some o
  | Layer.segmentation _ _ _ _ => none

/-- The layer's blend mode: set only on image layers. -/
def layerBlend : Layer → Option String
  | Layer.image _ _ _ b _ => some b
  | Layer.segmentation _ _ _ _ => none

/-- `instanceof ImageLayer`. -/
def isImageLayer : Layer → Bool
  | Layer.image _ _ _ _ _ => true
  | Layer.segmentation _ _ _ _ => false

/-- `makeLayer` from `Navigation.tsx`: builds the data source (and mesh
subsources) through the transform engine, then an image layer with opacity
`0.75`, `additive` blending and the synthesized shader, or a segmentation
layer (attaching subsources and the primary subsource's ids when present);
other layer types produce no layer. -/
def makeLayer (volume : VolumeSource) (layerType : String) : Option Layer :=
  let srcURL := volume.format ++ "://" ++ volume.url
  let source : LayerDataSource2 :=
    { url := srcURL,
      transform := SpatialTransformToNeuroglancer volume.transform outputDimensions }
  let subsources := volume.subsources.map (fun subsource =>
    ({ url := "precomputed://" ++ subsource.url,
       transform := SpatialTransformToNeuroglancer subsource.transform outputDimensions } :
      LayerDataSource2))
  let color := volume.displaySettings.color
  if layerType == "image" then
    some (Layer.image volume.name source (0.75 : ℚ) "additive"
      (makeShader volume.displaySettings volume.sampleType))
  else if layerType == "segmentation" then
    if 0 < subsources.length then
      some (Layer.segmentation volume.name (source :: subsources)
        (volume.subsources.head?.map (fun s => s.ids)) color)
    else
      some (Layer.segmentation volume.name [source] none color)
  else
    none

/-- The selected-layer marker `{layer: name, visible: true}`. -/
structure SelectedLayer where
  layer : String
  visible : Bool
  deriving DecidableEq

/-- The viewer state assembled by `makeNeuroglancerViewerState`, restricted
to the non-cosmetic fields the repository sets (the external constructor's
boolean toggles, `undefined` slots and the two `'black'` background colors
are fixed cosmetic arguments not modelled here). -/
structure ViewerState where
  dimensions : CoordinateSpace
  position : Option (List ℚ)
  layers : List Layer
  layout : String
  crossSectionScale : ℚ
  crossSectionOrientation : Option (List ℚ)
  projectionScale : ℚ
  projectionOrientation : Option (List ℚ)
  selectedLayer : SelectedLayer
  deriving DecidableEq

/-- The post-hoc opacity adjustment in `makeNeuroglancerViewerState`:
`if (layers.length === 1 && layers[0] instanceof ImageLayer)
  layers[0].opacity = 1.0`. -/
def setOpacityOne : Layer → Layer
  | Layer.image n s _ b sh => Layer.image n s 1 b sh
  | l => l

/-- The singleton-image-layer opacity adjustment applied to the layer list. -/
def forceSingleLayerOpacity (layers : List Layer) : List Layer :=
  match layers with
  | [l] => if isImageLayer l then [setOpacityOne l] else [l]
  | other => other

/-- `Dataset.makeNeuroglancerViewerState` from `Navigation.tsx` up to the
final serialization (`encodeFragment(urlSafeStringify(...))` belongs to the
external viewer library): adjusts a lone image layer to opacity `1.0`,
defaults the cross-section scale to `50` when falsy (absent or `0`), uses
projection scale `65536`, marks the first layer as selected, and fails
(`none`) when the layer list is empty (`layers[0]!.name` would throw). -/
def makeNeuroglancerViewerState (layers : List Layer) (viewerPosition : Option (List ℚ))
    (crossSectionScale : Option ℚ) (crossSectionOrientation : Option (List ℚ)) :
    Option ViewerState :=
  let adjusted := forceSingleLayerOpacity layers
  let projectionOrientation := crossSectionOrientation
  let crossSectionScaleOut : ℚ :=
    match crossSectionScale with
    | some q => if q = 0 then 50 else q
    | none => 50
  let projectionScale : ℚ := 65536
  match adjusted.head? with
  | none => none
  | some l0 =>
    some { dimensions := outputDimensions,
           position := viewerPosition,
           layers := adjusted,
           layout := "4panel",
           crossSectionScale := crossSectionScaleOut,
           crossSectionOrientation := crossSectionOrientation,
           projectionScale := projectionScale,
           projectionOrientation := projectionOrientation,
           selectedLayer := { layer := layerName l0, visible := true } }

/-- The viewer-state compilation pipeline of the spec (one layer per selected
volume via `makeLayer`, then `makeNeuroglancerViewerState`); the glue between
the two source functions lives in their caller, outside the extracted
sources. -/
def compileSelection (selection : List (VolumeSource × String)) (pos : Option (List ℚ))
    (scale : Option ℚ) (orient : Option (List ℚ)) : Option ViewerState :=
  makeNeuroglancerViewerState (selection.filterMap (fun p => makeLayer p.1 p.2))
    pos scale orient

/-- A tag: a value plus a category drawn from the closed `TagCategories`
union type (categories kept as strings, matching the TS literal types). -/
structure ITag where
  value : String
  category : String
  deriving DecidableEq

/-- One character of `JSON.stringify`'s string escaping: quotes and
backslashes are escaped.  (Control-character escapes do not affect key
distinctness and are omitted.) -/
def escChar (c : Char) : List Char :=
  if c = '"' ∨ c = '\\' then ['\\', c] else [c]

/-- `JSON.stringify` string-body escaping over a character list. -/
def escL : List Char → List Char
  | [] => []
  | c :: cs => escChar c ++ escL cs

/-- `JSON.stringify` of a string: escaped body between double quotes. -/
def jsonStringifyString (s : String) : String :=
  "\"" ++ String.mk (escL s.data) ++ "\""

/-- `JSON.stringify` of a tag object (field insertion order `value`,
`category`, as in the tag literals of `makeTags`). -/
def stringifyTag (t : ITag) : String :=
  "\x7b\"value\":" ++ jsonStringifyString t.value ++ ",\"category\":" ++
    jsonStringifyString t.category ++ "\x7d"

/-- JS `Map.prototype.set` on an association list: replaces the value at an
existing key in place, otherwise appends the new entry. -/
def mapSet {T : Type} (l : List (String × T)) (k : String) (v : T) : List (String × T) :=
  if l.any (fun p => p.1 == k) then l.map (fun p => if p.1 == k then (k, v) else p)
  else l ++ [(k, v)]

/-- `OSet` from `Navigation.tsx`: a deduplicating set backed by a
`Map<string, T>` keyed by `JSON.stringify` of the element. -/
structure OSet (T : Type) where
  entries : List (String × T)
  deriving DecidableEq

/-- `OSet.add` at element type `ITag` (the only element type the code
instantiates it at): `this.map.set(JSON.stringify(element), element)`. -/
def OSet.add (s : OSet ITag) (element : ITag) : OSet ITag :=
  ⟨mapSet s.entries (stringifyTag element) element⟩

/-- `OSet.has`: membership of the stringified element among the keys. -/
def OSet.has (s : OSet ITag) (element : ITag) : Bool :=
  s.entries.any (fun p => p.1 == stringifyTag element)

/-- `gridSpacing.values` of the dataset metadata: per-axis spacing, each
axis possibly absent. -/
structure GridSpacingValues where
  x : Option ℚ
  y : Option ℚ
  z : Option ℚ
  deriving DecidableEq

/-- The `gridSpacing` record of the imaging metadata. -/
structure GridSpacing where
  values : GridSpacingValues
  deriving DecidableEq

/-- The imaging metadata fields `makeTags` reads. -/
structure ImagingMetadata where
  institution : String
  gridSpacing : GridSpacing
  deriving DecidableEq

/-- The sample metadata fields `makeTags` reads. -/
structure SampleMetadata where
  organism : List String
  type : List String
  subtype : List String
  treatment : List String
  deriving DecidableEq

/-- `DatasetMetadata` restricted to the fields `makeTags` reads (the module
defining the full type is not among the extracted sources; the field shapes
are fixed by their uses in `makeTags`). -/
structure DatasetMetadata where
  institution : List String
  imaging : ImagingMetadata
  sample : SampleMetadata
  softwareAvailability : String
  deriving DecidableEq

/-- The constant `resolutionTagThreshold = 6`. -/
def resolutionTagThreshold : ℚ := 6

/-- `Dataset.makeTags` from `Navigation.tsx` as a function of
`this.description`: acquisition institution, contributing institutions,
organism/type/subtype/treatment lists, the bucketed axial-voxel tag (when z
spacing is present), the lateral-voxel tag
`Math.min(values.y, values.x!).toString()` (added when x or y is present),
and the software-availability tag. -/
def makeTags (descr : DatasetMetadata) : OSet ITag :=
  let tags : OSet ITag := ⟨[]⟩
  let tags := tags.add ⟨descr.imaging.institution, "Acquisition institution"⟩
  let tags := descr.institution.foldl
    (fun acc val => acc.add ⟨val, "Contributing institution"⟩) tags
  let tags := descr.sample.organism.foldl
    (fun acc val => acc.add ⟨val, "Sample: Organism"⟩) tags
  let tags := descr.sample.type.foldl
    (fun acc val => acc.add ⟨val, "Sample: Type"⟩) tags
  let tags := descr.sample.subtype.foldl
    (fun acc val => acc.add ⟨val, "Sample: Subtype"⟩) tags
  let tags := descr.sample.treatment.foldl
    (fun acc val => acc.add ⟨val, "Sample: Treatment"⟩) tags
  let tags :=
    match descr.imaging.gridSpacing.values.z with
    | some axvox =>
      let value := if axvox ≤ resolutionTagThreshold
        then "<= " ++ toString resolutionTagThreshold ++ " nm"
        else "> " ++ toString resolutionTagThreshold ++ " nm"
      tags.add ⟨value, "Axial voxel size"⟩
    | none => tags
  let tags :=
    if descr.imaging.gridSpacing.values.y.isSome || descr.imaging.gridSpacing.values.x.isSome then
      let latvox := jsMin (jsValOfOpt descr.imaging.gridSpacing.values.y)
        (jsValOfOpt descr.imaging.gridSpacing.values.x)
      tags.add ⟨jsToString latvox, "Lateral voxel size"⟩
    else tags
  tags.add ⟨descr.softwareAvailability, "Software Availability"⟩

/-- `IDatasetView`, the raw view blob of the manifest: name, description,
selected source keys, optional position, scale and orientation. -/
structure IDatasetView where
  name : String
  description : String
  sources : List String
  position : Option (List ℚ)
  scale : Option ℚ
  orientation : Option (List ℚ)
  deriving DecidableEq

/-- The `DefaultView` constant from `Navigation.tsx`. -/
def DefaultView : IDatasetView :=
  { name := "Default view", description := "The default view of the data", sources := [],
    orientation := some [0, 1, 0, 0], position := none, scale := none }

/-- The `DatasetView` class (same fields as the blob). -/
structure DatasetView where
  name : String
  description : String
  sources : List String
  position : Option (List ℚ)
  scale : Option ℚ
  orientation : Option (List ℚ)
  deriving DecidableEq

/-- The `DatasetView` constructor: copies the blob's fields (`?? undefined`
on the optional fields is the identity). -/
def DatasetView.ofBlob (blob : IDatasetView) : DatasetView :=
  { name := blob.name, description := blob.description, sources := blob.sources,
    position := blob.position, scale := blob.scale, orientation := blob.orientation }

/-- The `Dataset` class fields (the volume `Map` modelled as an ordered
association list). -/
structure Dataset where
  name : String
  space : CoordinateSpace
  volumes : List (String × VolumeSource)
  description : DatasetMetadata
  thumbnailURL : String
  views : List DatasetView
  tags : OSet ITag
  deriving DecidableEq

/-- The `Dataset` constructor: hydrates the views, substituting the
synthesized default view when the input list is empty, and computes the tag
set. -/
def Dataset.make (name : String) (space : CoordinateSpace)
    (volumes : List (String × VolumeSource)) (description : DatasetMetadata)
    (thumbnailURL : String) (views : List IDatasetView) : Dataset :=
  { name := name, space := space, volumes := volumes, description := description,
    thumbnailURL := thumbnailURL,
    views := if views.length = 0 then [DatasetView.ofBlob DefaultView]
             else views.map DatasetView.ofBlob,
    tags := makeTags description }

/-- JS `Map.prototype.get` on an association list. -/
def mapGet {T : Type} (m : List (String × T)) (k : String) : Option T :=
  (m.find? (fun p => p.1 == k)).map (fun p => p.2)

/-- The `local_view.volumeKeys` computed by `NeuroglancerLink`: the dataset's
volume keys, in insertion order, whose checkbox state is truthy. -/
def selectedVolumeKeys (volumes : List (String × VolumeSource))
    (checkState : List (String × Bool)) : List String :=
  (volumes.filter (fun p => (mapGet checkState p.1).getD false)).map (fun p => p.1)

/-- The outcome of rendering `NeuroglancerLink`: the refusal marker (the
"No layers selected" message) or a viewer link over the selected keys (the
link's href serialization belongs to the external viewer library). -/
inductive LinkResult where
  | noLayersSelected : LinkResult
  | viewLink (volumeKeys : List String) : LinkResult
  deriving DecidableEq

/-- `NeuroglancerLink` from the dataset-detail page: computes the selected
volume keys and refuses to produce a link when none are selected. -/
def NeuroglancerLink (volumes : List (String × VolumeSource))
    (checkState : List (String × Bool)) : LinkResult :=
  let volumeKeys := selectedVolumeKeys volumes checkState
  if volumeKeys.length = 0 then LinkResult.noLayersSelected
  else LinkResult.viewLink volumeKeys

/-- The number of entries stored under key `k` (a JS `Map` holds at most
one). -/
def countKey (k : String) (l : List (String × ITag)) : ℕ :=
  l.countP (fun p => p.1 == k)

/-- Every entry of an `OSet` built by `add` stores its value under that
value's canonical key. -/
def Coherent (s : OSet ITag) : Prop := ∀ p ∈ s.entries, p.1 = stringifyTag p.2

/-- The tags of a given category stored in a tag set, in insertion order. -/
def filterCat (c : String) (s : OSet ITag) : List ITag :=
  (s.entries.filter (fun p => p.2.category == c)).map (fun p => p.2)

/-- Proof helper: the prefix of `makeTags` before the lateral-voxel step
(acquisition-institution tag, the institution/organism/type/subtype/treatment
folds, and the axial-voxel tag). -/
def preTags (descr : DatasetMetadata) : OSet ITag :=
  let tags : OSet ITag := ⟨[]⟩
  let tags := tags.add ⟨descr.imaging.institution, "Acquisition institution"⟩
  let tags := descr.institution.foldl
    (fun acc val => acc.add ⟨val, "Contributing institution"⟩) tags
  let tags := descr.sample.organism.foldl
    (fun acc val => acc.add ⟨val, "Sample: Organism"⟩) tags
  let tags := descr.sample.type.foldl
    (fun acc val => acc.add ⟨val, "Sample: Type"⟩) tags
  let tags := descr.sample.subtype.foldl
    (fun acc val => acc.add ⟨val, "Sample: Subtype"⟩) tags
  let tags := descr.sample.treatment.foldl
    (fun acc val => acc.add ⟨val, "Sample: Treatment"⟩) tags
  match descr.imaging.gridSpacing.values.z with
  | some axvox =>
    let value := if axvox ≤ resolutionTagThreshold
      then "<= " ++ toString resolutionTagThreshold ++ " nm"
      else "> " ++ toString resolutionTagThreshold ++ " nm"
    tags.add ⟨value, "Axial voxel size"⟩
  | none => tags

/-- The manifest of one dataset (shape of `fetchManifest`'s result). -/
structure Manifest where
  sources : List (String × VolumeSource)
  metadata : DatasetMetadata
  views : List IDatasetView

/-- The `{thumbnail, manifest}` entry returned by `GithubDatasetAPI.get`. -/
structure ManifestEntry where
  thumbnail : String
  manifest : Manifest

/-- `makeDatasets` from `Navigation.tsx`.  The `GithubDatasetAPI` (its module
is not among the extracted sources) is abstracted as the two effects the
function consumes: the catalog index (the dataset keys, or a rejection) and
the per-key `{thumbnail, manifest}` fetch (a rejection models a failed fetch
or parse).  The index rejection is caught (`try/catch`) and yields an empty
map; the per-key fetches run under `Promise.all` with NO per-entry catch, so
a single rejection rejects the whole call (`Except.error`). -/
def makeDatasets (index : Except String (List String))
    (get : String → Except String ManifestEntry) :
    Except String (List (String × Dataset)) :=
  match index with
  | Except.error _ => Except.ok []
  | Except.ok keys =>
    keys.mapM (fun dataset_key =>
      (get dataset_key).map (fun e =>
        (dataset_key, Dataset.make dataset_key outputDimensions e.manifest.sources
          e.manifest.metadata e.thumbnail e.manifest.views)))

/-- One iteration of the legacy catalog loop (part_001): skip the dataset
when its `index.json` is unavailable, and `try { build } catch { log }` —
a construction error skips the dataset, a success appends it. -/
def legacyStep {D I R : Type} (getDescription : String → Option D)
    (getIndex : String → Option I) (build : String → Option D → I → Except String R)
    (datasets : List (String × R)) (key : String) : List (String × R) :=
  match getIndex key with
  | some index =>
    match build key (getDescription key) index with
    | Except.ok ds => datasets ++ [(key, ds)]
    | Except.error _ => datasets
  | none => datasets

/-- Modelled from the spec: the legacy `makeDatasets` loop (part_001) calls
`getObjectFromJSON` from the missing `datasources` module; per the spec's
transport-error taxonomy (and the loop's `index !== undefined` test) a
transport failure resolves to `none` rather than rejecting.  The try-block
body — `Volume.fromVolumeMeta` over the index entries plus
`new Dataset(...)`, which can throw inside external URL/path handling — is
abstracted as `build`. -/
def makeDatasetsLegacy {D I R : Type} (datasetKeys : List String)
    (getDescription : String → Option D) (getIndex : String → Option I)
    (build : String → Option D → I → Except String R) : List (String × R) :=
  datasetKeys.foldl (legacyStep getDescription getIndex build) []

/-- The datasets contributed by one key in the legacy loop. -/
def legacyNew {D I R : Type} (getDescription : String → Option D)
    (getIndex : String → Option I) (build : String → Option D → I → Except String R)
    (key : String) : List (String × R) :=
  match getIndex key with
  | some index =>
    match build key (getDescription key) index with
    | Except.ok ds => [(key, ds)]
    | Except.error _ => []
  | none => []

/-- A layer-checkbox change event (`event.target.name`,
`event.target.checked`). -/
structure CheckEvent where
  name : String
  checked : Bool
  deriving DecidableEq

/-- `handleLayerChange` from `DatasetPaper.tsx`, read functionally: compute
the updated map, and skip the state update (keeping the previous state) when
every checkbox would be deselected. -/
def handleLayerChange (layerCheckState : List (String × Bool)) (event : CheckEvent) :
    List (String × Bool) :=
  let newCheckState := mapSet layerCheckState event.name event.checked
  if !(newCheckState.all (fun p => p.2 == false)) then newCheckState else layerCheckState

/-- `layerCheckStateInit` from `DatasetPaper.tsx`: each volume key is checked
exactly when the first view's volume-key list contains it.  (`views[0]` is
total because every constructed dataset has at least one view.) -/
def layerCheckStateInit (dataset : Dataset) : List (String × Bool) :=
  dataset.volumes.map (fun p =>
    (p.1, ((dataset.views.headD (DatasetView.ofBlob DefaultView)).sources).contains p.1))

/-- The layer-selection states reachable through layer checkbox events from
the initial state of the dataset-detail page.  (View-selection events, which
reset the whole map, are outside this claim's cited code.) -/
inductive ReachableLayerState (dataset : Dataset) : List (String × Bool) → Prop where
  | init : ReachableLayerState dataset (layerCheckStateInit dataset)
  | step (s : List (String × Bool)) (e : CheckEvent) :
      ReachableLayerState dataset s →
      ReachableLayerState dataset (handleLayerChange s e)

lemma arrGet_of_get? {xs : List ℚ} {n : ℕ} {q : ℚ} (h : xs.get? n = some q) :
    arrGet xs (n : ℤ) = JSVal.num q := by
  obtain ⟨hlt, hget⟩ := List.get?_eq_some.mp h
  simp only [arrGet]
  rw [dif_pos ⟨Int.ofNat_nonneg n, by simpa using hlt⟩]
  simp only [JSVal.num.injEq]
  simpa using hget

lemma jsIndexOf_of_findIdx? {xs : List String} {l : String} {n : ℕ}
    (h : List.findIdx? (fun a => a == l) xs = some n) : jsIndexOf xs l = (n : ℤ) := by
  simp [jsIndexOf, h]

/-- C1 (amended): for every spatial transform whose axis-label list contains
`x`, `y` and `z` (at indices valid in the scale and translate lists), the
produced input coordinate space has per-axis unit size `1e-9 * |scale|`
(independent of the scale's sign), the matrix diagonal entries are exactly
`+1` or `-1` and equal the sign of the axis's scale whenever that scale is
nonzero (a zero scale produces `+1`, not `sign 0 = 0`), and the translation
column carries the raw translate values unchanged. -/
theorem claim_C1 (t : SpatialTransform) (o : CoordinateSpace)
    (ix iy iz : ℕ) (sx sy sz tx ty tz : ℚ)
    (hx : List.findIdx? (fun a => a == "x") t.axes = some ix)
    (hy : List.findIdx? (fun a => a == "y") t.axes = some iy)
    (hz : List.findIdx? (fun a => a == "z") t.axes = some iz)
    (hsx : t.scale.get? ix = some sx) (hsy : t.scale.get? iy = some sy)
    (hsz : t.scale.get? iz = some sz)
    (htx : t.translate.get? ix = some tx) (hty : t.translate.get? iy = some ty)
    (htz : t.translate.get? iz = some tz) :
    ((SpatialTransformToNeuroglancer t o).inputDimensions.x = (JSVal.num (nmScale * abs sx), "m") ∧
     (SpatialTransformToNeuroglancer t o).inputDimensions.y = (JSVal.num (nmScale * abs sy), "m") ∧
     (SpatialTransformToNeuroglancer t o).inputDimensions.z = (JSVal.num (nmScale * abs sz), "m")) ∧
    ((matrixEntry (SpatialTransformToNeuroglancer t o) 0 0 = JSVal.num 1 ∨
      matrixEntry (SpatialTransformToNeuroglancer t o) 0 0 = JSVal.num (-1)) ∧
     (sx ≠ 0 → matrixEntry (SpatialTransformToNeuroglancer t o) 0 0 = JSVal.num (specSign sx)) ∧
     (sx = 0 → matrixEntry (SpatialTransformToNeuroglancer t o) 0 0 = JSVal.num 1)) ∧
    ((matrixEntry (SpatialTransformToNeuroglancer t o) 1 1 = JSVal.num 1 ∨
      matrixEntry (SpatialTransformToNeuroglancer t o) 1 1 = JSVal.num (-1)) ∧
     (sy ≠ 0 → matrixEntry (SpatialTransformToNeuroglancer t o) 1 1 = JSVal.num (specSign sy)) ∧
     (sy = 0 → matrixEntry (SpatialTransformToNeuroglancer t o) 1 1 = JSVal.num 1)) ∧
    ((matrixEntry (SpatialTransformToNeuroglancer t o) 2 2 = JSVal.num 1 ∨
      matrixEntry (SpatialTransformToNeuroglancer t o) 2 2 = JSVal.num (-1)) ∧
     (sz ≠ 0 → matrixEntry (SpatialTransformToNeuroglancer t o) 2 2 = JSVal.num (specSign sz)) ∧
     (sz = 0 → matrixEntry (SpatialTransformToNeuroglancer t o) 2 2 = JSVal.num 1)) ∧
    (matrixEntry (SpatialTransformToNeuroglancer t o) 0 3 = JSVal.num tx ∧
     matrixEntry (SpatialTransformToNeuroglancer t o) 1 3 = JSVal.num ty ∧
     matrixEntry (SpatialTransformToNeuroglancer t o) 2 3 = JSVal.num tz) := by
  have Ex : arrGet t.scale (jsIndexOf t.axes "x") = JSVal.num sx := by
    rw [jsIndexOf_of_findIdx? hx]; exact arrGet_of_get? hsx
  have Ey : arrGet t.scale (jsIndexOf t.axes "y") = JSVal.num sy := by
    rw [jsIndexOf_of_findIdx? hy]; exact arrGet_of_get? hsy
  have Ez : arrGet t.scale (jsIndexOf t.axes "z") = JSVal.num sz := by
    rw [jsIndexOf_of_findIdx? hz]; exact arrGet_of_get? hsz
  have Tx : arrGet t.translate (jsIndexOf t.axes "x") = JSVal.num tx := by
    rw [jsIndexOf_of_findIdx? hx]; exact arrGet_of_get? htx
  have Ty : arrGet t.translate (jsIndexOf t.axes "y") = JSVal.num ty := by
    rw [jsIndexOf_of_findIdx? hy]; exact arrGet_of_get? hty
  have Tz : arrGet t.translate (jsIndexOf t.axes "z") = JSVal.num tz := by
    rw [jsIndexOf_of_findIdx? hz]; exact arrGet_of_get? htz
  have key : SpatialTransformToNeuroglancer t o =
      { matrix :=
          [ [if sx < 0 then JSVal.num (-1) else JSVal.num 1, JSVal.num 0, JSVal.num 0,
             JSVal.num tx],
            [JSVal.num 0, if sy < 0 then JSVal.num (-1) else JSVal.num 1, JSVal.num 0,
             JSVal.num ty],
            [JSVal.num 0, JSVal.num 0, if sz < 0 then JSVal.num (-1) else JSVal.num 1,
             JSVal.num tz] ],
        outputDimensions := o,
        inputDimensions :=
          { x := (JSVal.num (nmScale * abs sx), "m"),
            y := (JSVal.num (nmScale * abs sy), "m"),
            z := (JSVal.num (nmScale * abs sz), "m") } } := by
    simp only [SpatialTransformToNeuroglancer, Ex, Ey, Ez, Tx, Ty, Tz, jsMul, jsAbs, jsLtZero,
      decide_eq_true_eq]
  have hdiag : ∀ s : ℚ,
      ((if s < 0 then JSVal.num (-1) else JSVal.num 1) = JSVal.num 1 ∨
       (if s < 0 then JSVal.num (-1) else JSVal.num 1) = JSVal.num (-1)) ∧
      (s ≠ 0 → (if s < 0 then JSVal.num (-1) else JSVal.num 1) = JSVal.num (specSign s)) ∧
      (s = 0 → (if s < 0 then JSVal.num (-1) else JSVal.num 1) = JSVal.num 1) := by
    intro s
    rcases lt_trichotomy s 0 with h | h | h
    · refine ⟨Or.inr (if_pos h), fun _ => ?_, fun h0 => absurd h0 (ne_of_lt h)⟩
      rw [if_pos h]
      simp [specSign, h]
    · subst h
      exact ⟨Or.inl (if_neg (lt_irrefl 0)), fun hne => absurd rfl hne,
        fun _ => if_neg (lt_irrefl 0)⟩
    · have hns : ¬ s < 0 := not_lt_of_gt h
      refine ⟨Or.inl (if_neg hns), fun _ => ?_, fun h0 => absurd h0 (ne_of_gt h)⟩
      rw [if_neg hns]
      simp [specSign, hns, ne_of_gt h]
  rw [key]
  exact ⟨⟨rfl, rfl, rfl⟩, hdiag sx, hdiag sy, hdiag sz, rfl, rfl, rfl⟩

/-- C1 witness: the spec's own scenario, scale `[-5, 5, 5]` on axes
`[x, y, z]`: the x diagonal entry is `-1 = sign(-5)` and the x unit size is
`5e-9` meters (not negative). -/
theorem claim_C1_witness :
    matrixEntry (SpatialTransformToNeuroglancer
      ⟨["x", "y", "z"], ["nm", "nm", "nm"], [0, 0, 0], [-5, 5, 5]⟩ outputDimensions) 0 0 =
      JSVal.num (specSign (-5)) ∧
    (SpatialTransformToNeuroglancer
      ⟨["x", "y", "z"], ["nm", "nm", "nm"], [0, 0, 0], [-5, 5, 5]⟩ outputDimensions).inputDimensions.x =
      (JSVal.num (nmScale * abs (-5)), "m") := by
  have h := claim_C1 ⟨["x", "y", "z"], ["nm", "nm", "nm"], [0, 0, 0], [-5, 5, 5]⟩
    outputDimensions 0 1 2 (-5) 5 5 0 0 0 rfl rfl rfl rfl rfl rfl rfl rfl rfl
  exact ⟨h.2.1.2.1 (by norm_num), h.1.1⟩

/-- C1 counterexample: the claim as stated fails on a zero scale.  For the
transform with axes `[x, y, z]` and scale `[0, 5, 5]`, the produced x
diagonal entry is `+1`, which is not the sign of the x scale (`sign 0 = 0`). -/
theorem claim_C1_counterexample :
    matrixEntry (SpatialTransformToNeuroglancer
      ⟨["x", "y", "z"], ["nm", "nm", "nm"], [0, 0, 0], [0, 5, 5]⟩ outputDimensions) 0 0 =
      JSVal.num 1 ∧
    matrixEntry (SpatialTransformToNeuroglancer
      ⟨["x", "y", "z"], ["nm", "nm", "nm"], [0, 0, 0], [0, 5, 5]⟩ outputDimensions) 0 0 ≠
      JSVal.num (specSign 0) := by
  constructor <;> decide

lemma arrGet_neg_one (xs : List ℚ) : arrGet xs (-1) = JSVal.undef := by
  unfold arrGet
  rw [dif_neg]
  rintro ⟨h, -⟩
  exact absurd h (by norm_num)

lemma jsIndexOf_of_not_found {xs : List String} {l : String}
    (h : List.findIdx? (fun a => a == l) xs = none) : jsIndexOf xs l = -1 := by
  simp [jsIndexOf, h]

/-- C9 (amended): a spatial transform whose axis-label list is missing one of
the expected labels `x`, `y`, `z` does not make viewer-transform construction
fail: `indexOf` yields `-1`, the out-of-bounds scale read yields `undefined`,
and the transform is silently produced with a `NaN` unit size, a `+1`
diagonal entry, and an `undefined` translate entry for the missing axis. -/
theorem claim_C9 (t : SpatialTransform) (o : CoordinateSpace) :
    (List.findIdx? (fun a => a == "x") t.axes = none →
      (SpatialTransformToNeuroglancer t o).inputDimensions.x = (JSVal.nan, "m") ∧
      matrixEntry (SpatialTransformToNeuroglancer t o) 0 0 = JSVal.num 1 ∧
      matrixEntry (SpatialTransformToNeuroglancer t o) 0 3 = JSVal.undef) ∧
    (List.findIdx? (fun a => a == "y") t.axes = none →
      (SpatialTransformToNeuroglancer t o).inputDimensions.y = (JSVal.nan, "m") ∧
      matrixEntry (SpatialTransformToNeuroglancer t o) 1 1 = JSVal.num 1 ∧
      matrixEntry (SpatialTransformToNeuroglancer t o) 1 3 = JSVal.undef) ∧
    (List.findIdx? (fun a => a == "z") t.axes = none →
      (SpatialTransformToNeuroglancer t o).inputDimensions.z = (JSVal.nan, "m") ∧
      matrixEntry (SpatialTransformToNeuroglancer t o) 2 2 = JSVal.num 1 ∧
      matrixEntry (SpatialTransformToNeuroglancer t o) 2 3 = JSVal.undef) := by
  refine ⟨fun hx => ?_, fun hy => ?_, fun hz => ?_⟩ <;>
    [ (have hix : jsIndexOf t.axes "x" = -1 := jsIndexOf_of_not_found hx);
      (have hix : jsIndexOf t.axes "y" = -1 := jsIndexOf_of_not_found hy);
      (have hix : jsIndexOf t.axes "z" = -1 := jsIndexOf_of_not_found hz) ] <;>
    refine ⟨?_, ?_, ?_⟩ <;>
    simp [SpatialTransformToNeuroglancer, matrixEntry, hix, arrGet_neg_one, jsAbs, jsMul,
      jsLtZero]

/-- C9 witness: for the concrete transform on axes `["x", "y"]` (missing
`z`), the amended theorem applies: the z unit is `NaN`, the z diagonal is
`+1`, and the z translate entry is `undefined`. -/
theorem claim_C9_witness :
    (SpatialTransformToNeuroglancer
      ⟨["x", "y"], ["nm", "nm"], [1, 2], [3, 4]⟩ outputDimensions).inputDimensions.z =
      (JSVal.nan, "m") ∧
    matrixEntry (SpatialTransformToNeuroglancer
      ⟨["x", "y"], ["nm", "nm"], [1, 2], [3, 4]⟩ outputDimensions) 2 2 = JSVal.num 1 ∧
    matrixEntry (SpatialTransformToNeuroglancer
      ⟨["x", "y"], ["nm", "nm"], [1, 2], [3, 4]⟩ outputDimensions) 2 3 = JSVal.undef :=
  (claim_C9 ⟨["x", "y"], ["nm", "nm"], [1, 2], [3, 4]⟩ outputDimensions).2.2 rfl

/-- C9 counterexample: the claim as stated fails — for the transform on axes
`["x", "y"]` with no `z` label, construction raises no error and instead
silently returns this complete transform value (with `NaN` unit size and
`undefined` translate for the missing axis). -/
theorem claim_C9_counterexample :
    SpatialTransformToNeuroglancer
      ⟨["x", "y"], ["nm", "nm"], [1, 2], [3, 4]⟩ outputDimensions =
    { matrix :=
        [ [JSVal.num 1, JSVal.num 0, JSVal.num 0, JSVal.num 1],
          [JSVal.num 0, JSVal.num 1, JSVal.num 0, JSVal.num 2],
          [JSVal.num 0, JSVal.num 0, JSVal.num 1, JSVal.undef] ],
      outputDimensions := outputDimensions,
      inputDimensions :=
        { x := (JSVal.num (3 / 1000000000), "m"),
          y := (JSVal.num (4 / 1000000000), "m"),
          z := (JSVal.nan, "m") } } := by
  have hx : jsMul (JSVal.num nmScale) (jsAbs (arrGet [3, 4] (jsIndexOf ["x", "y"] "x"))) =
      JSVal.num (3 / 1000000000) := by
    rw [show jsIndexOf ["x", "y"] "x" = 0 from rfl, show arrGet [3, 4] 0 = JSVal.num 3 from rfl]
    simp only [jsAbs, jsMul]
    norm_num [nmScale]
  have hy : jsMul (JSVal.num nmScale) (jsAbs (arrGet [3, 4] (jsIndexOf ["x", "y"] "y"))) =
      JSVal.num (4 / 1000000000) := by
    rw [show jsIndexOf ["x", "y"] "y" = 1 from rfl, show arrGet [3, 4] 1 = JSVal.num 4 from rfl]
    simp only [jsAbs, jsMul]
    norm_num [nmScale]
  have hz : jsMul (JSVal.num nmScale) (jsAbs (arrGet [3, 4] (jsIndexOf ["x", "y"] "z"))) =
      JSVal.nan := by decide
  simp only [SpatialTransformToNeuroglancer, hx, hy, hz]
  simp only [CoordinateSpaceTransform.mk.injEq]
  exact ⟨by decide, trivial, trivial⟩

set_option maxHeartbeats 2000000 in
/-- C4: the shader synthesizer is a total function of (display settings,
sample type) — it is a Lean function, so it never fails.  For `"scalar"` it
returns a parameterized program exposing a normalization window
(`invlerp normalized(range=..., window=...)`), an invert toggle
(`invertColormap` slider) and a tint color (`vec3 color` control); for
`"label"` it returns the empty-body program `""`; for any other sample type
it returns `none` (no shader). -/
theorem claim_C4 (d : DisplaySettings) :
    (∃ rest, makeShader d "scalar" =
      some ("#uicontrol invlerp normalized(range=[" ++ rest)) ∧
    (∃ a b, makeShader d "scalar" =
      some (a ++ "#uicontrol int invertColormap slider(min=0, max=1, step=1, default=" ++ b)) ∧
    (∃ a b, makeShader d "scalar" =
      some (a ++ "#uicontrol vec3 color color(default=\"" ++ b)) ∧
    makeShader d "label" = some "" ∧
    (∀ st : String, st ≠ "scalar" → st ≠ "label" → makeShader d st = none) := by
  refine ⟨⟨_, rfl⟩, ?_, ?_, rfl, ?_⟩
  · refine ⟨"#uicontrol invlerp normalized(range=[" ++ toString d.contrastLimits.start ++ ", " ++
      toString d.contrastLimits.endVal ++ "], window=[" ++ toString d.contrastLimits.min ++
      ", " ++ toString d.contrastLimits.max ++ "])\n        ",
      (if d.invertLUT then "1" else "0") ++ ")\n        " ++
      "#uicontrol vec3 color color(default=\"" ++ jsInterpolate d.color ++
      "\")\n        float inverter(float val, int invert) \x7breturn 0.5 + ((2.0 * (-float(invert) + 0.5)) * (val - 0.5));\x7d\n          void main() \x7b\n          emitRGB(color * inverter(normalized(), invertColormap));\n        \x7d", ?_⟩
    simp only [makeShader, String.append_assoc]
  · refine ⟨"#uicontrol invlerp normalized(range=[" ++ toString d.contrastLimits.start ++ ", " ++
      toString d.contrastLimits.endVal ++ "], window=[" ++ toString d.contrastLimits.min ++
      ", " ++ toString d.contrastLimits.max ++ "])\n        " ++
      "#uicontrol int invertColormap slider(min=0, max=1, step=1, default=" ++
      (if d.invertLUT then "1" else "0") ++ ")\n        ",
      jsInterpolate d.color ++
      "\")\n        float inverter(float val, int invert) \x7breturn 0.5 + ((2.0 * (-float(invert) + 0.5)) * (val - 0.5));\x7d\n          void main() \x7b\n          emitRGB(color * inverter(normalized(), invertColormap));\n        \x7d", ?_⟩
    simp only [makeShader, String.append_assoc]
  · intro st hs hl
    simp only [makeShader]

/-- C4 witness: the theorem applied at concrete display settings, with the
unrecognized sample type `"annotation"` discharging the final hypotheses. -/
theorem claim_C4_witness :
    makeShader ⟨⟨0, 255, 10, 200⟩, true, some "white"⟩ "label" = some "" ∧
    makeShader ⟨⟨0, 255, 10, 200⟩, true, some "white"⟩ "annotation" = none := by
  have h := claim_C4 ⟨⟨0, 255, 10, 200⟩, true, some "white"⟩
  exact ⟨h.2.2.2.1, h.2.2.2.2 "annotation" (by decide) (by decide)⟩

lemma makeLayer_image (v : VolumeSource) :
    makeLayer v "image" = some (Layer.image v.name
      ⟨v.format ++ "://" ++ v.url, SpatialTransformToNeuroglancer v.transform outputDimensions⟩
      (0.75 : ℚ) "additive" (makeShader v.displaySettings v.sampleType)) := rfl

lemma makeLayer_segmentation (v : VolumeSource) :
    ∃ srcs ids, makeLayer v "segmentation" =
      some (Layer.segmentation v.name srcs ids v.displaySettings.color) := by
  rcases h : v.subsources with _ | ⟨s, rest⟩
  · exact ⟨[⟨v.format ++ "://" ++ v.url,
      SpatialTransformToNeuroglancer v.transform outputDimensions⟩], none,
      by simp [makeLayer, h]⟩
  · refine ⟨⟨v.format ++ "://" ++ v.url,
      SpatialTransformToNeuroglancer v.transform outputDimensions⟩ ::
      (s :: rest).map (fun subsource =>
        ({ url := "precomputed://" ++ subsource.url,
           transform := SpatialTransformToNeuroglancer subsource.transform outputDimensions } :
          LayerDataSource2)), some s.ids, ?_⟩
    simp [makeLayer, h]

lemma forceSingleLayerOpacity_of_two_le {layers : List Layer} (h : 2 ≤ layers.length) :
    forceSingleLayerOpacity layers = layers := by
  match layers with
  | [] => simp at h
  | [l] => simp at h
  | a :: b :: rest => rfl

/-- C2 (amended): compiling a selection with exactly one image volume yields
a layer with opacity forced to `1.0` and additive blending; a lone
segmentation layer is NOT adjusted (the `instanceof ImageLayer` guard) and
its constructor receives no opacity at all; compiling two or more image
volumes yields opacity `0.75` for each layer, with additive blending. -/
theorem claim_C2 :
    (∀ (v : VolumeSource) (pos : Option (List ℚ)) (sc : Option ℚ) (orient : Option (List ℚ)),
      (compileSelection [(v, "image")] pos sc orient).map
          (fun st => st.layers.map layerOpacity) = some [some 1] ∧
      (compileSelection [(v, "image")] pos sc orient).map
          (fun st => st.layers.map layerBlend) = some [some "additive"]) ∧
    (∀ (v : VolumeSource) (pos : Option (List ℚ)) (sc : Option ℚ) (orient : Option (List ℚ)),
      (compileSelection [(v, "segmentation")] pos sc orient).map
          (fun st => st.layers.map layerOpacity) = some [none]) ∧
    (∀ (vs : List VolumeSource) (pos : Option (List ℚ)) (sc : Option ℚ)
        (orient : Option (List ℚ)), 2 ≤ vs.length →
      (compileSelection (vs.map (fun v => (v, "image"))) pos sc orient).map
          (fun st => st.layers.map layerOpacity) =
        some (List.replicate vs.length (some (0.75 : ℚ))) ∧
      (compileSelection (vs.map (fun v => (v, "image"))) pos sc orient).map
          (fun st => st.layers.map layerBlend) =
        some (List.replicate vs.length (some "additive"))) := by
  refine ⟨?_, ?_, ?_⟩
  · intro v pos sc orient
    constructor <;>
      simp [compileSelection, makeLayer_image, makeNeuroglancerViewerState,
        forceSingleLayerOpacity, isImageLayer, setOpacityOne, layerOpacity, layerBlend]
  · intro v pos sc orient
    obtain ⟨srcs, ids, hseg⟩ := makeLayer_segmentation v
    simp [compileSelection, hseg, makeNeuroglancerViewerState,
      forceSingleLayerOpacity, isImageLayer, layerOpacity]
  · intro vs pos sc orient hlen
    obtain ⟨a, b, rest, rfl⟩ : ∃ a b rest, vs = a :: b :: rest := by
      match vs, hlen with
      | a :: b :: rest, _ => exact ⟨a, b, rest, rfl⟩
    have hmap : ∀ (l : List VolumeSource),
        (l.map (fun v => (v, "image"))).filterMap (fun p => makeLayer p.1 p.2) =
        l.map (fun v => Layer.image v.name
          ⟨v.format ++ "://" ++ v.url,
            SpatialTransformToNeuroglancer v.transform outputDimensions⟩
          (0.75 : ℚ) "additive" (makeShader v.displaySettings v.sampleType)) := by
      intro l
      induction l with
      | nil => rfl
      | cons x xs ih =>
        simp only [List.map_cons, List.filterMap_cons, makeLayer_image]
        rw [ih]
    have hop : ∀ (l : List VolumeSource),
        (l.map (fun v => Layer.image v.name
          ⟨v.format ++ "://" ++ v.url,
            SpatialTransformToNeuroglancer v.transform outputDimensions⟩
          (0.75 : ℚ) "additive" (makeShader v.displaySettings v.sampleType))).map layerOpacity =
        List.replicate l.length (some (0.75 : ℚ)) := by
      intro l
      induction l with
      | nil => rfl
      | cons x xs ih => simp [layerOpacity, ih, List.replicate_succ]
    have hbl : ∀ (l : List VolumeSource),
        (l.map (fun v => Layer.image v.name
          ⟨v.format ++ "://" ++ v.url,
            SpatialTransformToNeuroglancer v.transform outputDimensions⟩
          (0.75 : ℚ) "additive" (makeShader v.displaySettings v.sampleType))).map layerBlend =
        List.replicate l.length (some "additive") := by
      intro l
      induction l with
      | nil => rfl
      | cons x xs ih => simp [layerBlend, ih, List.replicate_succ]
    have hcomp : compileSelection ((a :: b :: rest).map (fun v => (v, "image"))) pos sc orient =
        some { dimensions := outputDimensions, position := pos,
               layers := (a :: b :: rest).map (fun v => Layer.image v.name
                 ⟨v.format ++ "://" ++ v.url,
                   SpatialTransformToNeuroglancer v.transform outputDimensions⟩
                 (0.75 : ℚ) "additive" (makeShader v.displaySettings v.sampleType)),
               layout := "4panel",
               crossSectionScale :=
                 match sc with
                 | some q => if q = 0 then 50 else q
                 | none => 50,
               crossSectionOrientation := orient, projectionScale := 65536,
               projectionOrientation := orient,
               selectedLayer := ⟨a.name, true⟩ } := by
      simp only [compileSelection]
      rw [hmap (a :: b :: rest)]
      rfl
    rw [hcomp]
    constructor
    · simp only [Option.map_some']
      rw [hop (a :: b :: rest)]
    · simp only [Option.map_some']
      rw [hbl (a :: b :: rest)]

/-- C2 witness: the amended theorem applied at two concrete image volumes
(discharging the `2 ≤ length` hypothesis) and at each single-volume case. -/
theorem claim_C2_witness :
    (compileSelection
        [(⟨"u1", "vol1", ⟨["x", "y", "z"], ["nm", "nm", "nm"], [0, 0, 0], [4, 4, 4]⟩, "em",
           "scalar", "n5", ⟨⟨0, 255, 10, 200⟩, false, some "white"⟩, "d1", []⟩, "image"),
         (⟨"u2", "vol2", ⟨["x", "y", "z"], ["nm", "nm", "nm"], [0, 0, 0], [4, 4, 4]⟩, "em",
           "scalar", "n5", ⟨⟨0, 255, 10, 200⟩, false, some "green"⟩, "d2", []⟩, "image")]
        none none none).map (fun st => st.layers.map layerOpacity) =
      some [some (0.75 : ℚ), some (0.75 : ℚ)] ∧
    (compileSelection
        [(⟨"u1", "vol1", ⟨["x", "y", "z"], ["nm", "nm", "nm"], [0, 0, 0], [4, 4, 4]⟩, "em",
           "scalar", "n5", ⟨⟨0, 255, 10, 200⟩, false, some "white"⟩, "d1", []⟩, "image")]
        none none none).map (fun st => st.layers.map layerOpacity) = some [some 1] := by
  constructor
  · have h := (claim_C2.2.2
      [⟨"u1", "vol1", ⟨["x", "y", "z"], ["nm", "nm", "nm"], [0, 0, 0], [4, 4, 4]⟩, "em",
         "scalar", "n5", ⟨⟨0, 255, 10, 200⟩, false, some "white"⟩, "d1", []⟩,
       ⟨"u2", "vol2", ⟨["x", "y", "z"], ["nm", "nm", "nm"], [0, 0, 0], [4, 4, 4]⟩, "em",
         "scalar", "n5", ⟨⟨0, 255, 10, 200⟩, false, some "green"⟩, "d2", []⟩]
      none none none (by norm_num)).1
    simpa using h
  · exact (claim_C2.1
      ⟨"u1", "vol1", ⟨["x", "y", "z"], ["nm", "nm", "nm"], [0, 0, 0], [4, 4, 4]⟩, "em",
        "scalar", "n5", ⟨⟨0, 255, 10, 200⟩, false, some "white"⟩, "d1", []⟩ none none none).1

/-- C2 counterexample: the claim as stated says a single-volume selection
always yields a layer with opacity `1.0` regardless of the layer's kind, but
for this concrete lone segmentation volume the compiled layer has no opacity
set at all (in particular not `1.0`): the adjustment is guarded by
`instanceof ImageLayer`. -/
theorem claim_C2_counterexample :
    (compileSelection
        [(⟨"u0", "seg0", ⟨["x", "y", "z"], ["nm", "nm", "nm"], [0, 0, 0], [4, 4, 4]⟩,
           "segmentation", "label", "n5", ⟨⟨0, 255, 10, 200⟩, false, some "red"⟩, "d0", []⟩,
          "segmentation")]
        none none none).map (fun st => st.layers.map layerOpacity) = some [none] ∧
    some [Option.some (1 : ℚ)] ≠ (some [none] :
      Option (List (Option ℚ))) := by
  constructor
  · rfl
  · simp

/-- C3: for every dataset volume map and every checkbox state in which no
volume key is checked, `NeuroglancerLink` yields the refusal marker ("No
layers selected") and never a viewer link. -/
theorem claim_C3 (volumes : List (String × VolumeSource))
    (checkState : List (String × Bool))
    (h : ∀ p ∈ volumes, (mapGet checkState p.1).getD false = false) :
    NeuroglancerLink volumes checkState = LinkResult.noLayersSelected ∧
    ∀ ks, NeuroglancerLink volumes checkState ≠ LinkResult.viewLink ks := by
  have hsel : selectedVolumeKeys volumes checkState = [] := by
    unfold selectedVolumeKeys
    rw [List.filter_eq_nil_iff.mpr]
    · rfl
    · intro p hp
      simp [h p hp]
  constructor
  · simp [NeuroglancerLink, hsel]
  · intro ks
    simp [NeuroglancerLink, hsel]

/-- C3 witness: a concrete dataset with one volume whose checkbox is
unchecked: the link is refused. -/
theorem claim_C3_witness :
    NeuroglancerLink
      [("fibsem-uint8",
        ⟨"u0", "fibsem-uint8", ⟨["x", "y", "z"], ["nm", "nm", "nm"], [0, 0, 0], [4, 4, 4]⟩,
         "em", "scalar", "n5", ⟨⟨0, 255, 10, 200⟩, false, some "white"⟩, "d0", []⟩)]
      [("fibsem-uint8", false)] = LinkResult.noLayersSelected :=
  (claim_C3
    [("fibsem-uint8",
      ⟨"u0", "fibsem-uint8", ⟨["x", "y", "z"], ["nm", "nm", "nm"], [0, 0, 0], [4, 4, 4]⟩,
       "em", "scalar", "n5", ⟨⟨0, 255, 10, 200⟩, false, some "white"⟩, "d0", []⟩)]
    [("fibsem-uint8", false)] (by decide)).1

/-- C5: every constructed dataset has at least one view, and a dataset
constructed from an empty view list has exactly one view — the synthesized
default view, whose selected-source list is empty and whose position and
scale are undefined. -/
theorem claim_C5 (name : String) (space : CoordinateSpace)
    (volumes : List (String × VolumeSource)) (descr : DatasetMetadata) (thumb : String) :
    (∀ views, 1 ≤ (Dataset.make name space volumes descr thumb views).views.length) ∧
    (Dataset.make name space volumes descr thumb []).views =
      [DatasetView.ofBlob DefaultView] ∧
    (Dataset.make name space volumes descr thumb []).views.length = 1 ∧
    (∀ v ∈ (Dataset.make name space volumes descr thumb []).views,
      v.sources = [] ∧ v.position = none ∧ v.scale = none) := by
  refine ⟨?_, rfl, rfl, ?_⟩
  · intro views
    rcases views with _ | ⟨b, bs⟩
    · simp [Dataset.make]
    · simp [Dataset.make]
  · intro v hv
    simp only [Dataset.make, List.length_nil, if_true, List.mem_singleton] at hv
    rw [show v = DatasetView.ofBlob DefaultView by simpa using hv]
    exact ⟨rfl, rfl, rfl⟩

/-- C5 witness: the theorem applied to a concrete dataset built with zero
views — the membership hypothesis is discharged on the synthesized default
view. -/
theorem claim_C5_witness :
    (Dataset.make "jrc_hela-2" outputDimensions [] ⟨[], ⟨"inst", ⟨⟨none, none, none⟩⟩⟩,
      ⟨[], [], [], []⟩, "open"⟩ "thumb" []).views = [DatasetView.ofBlob DefaultView] ∧
    (DatasetView.ofBlob DefaultView).sources = [] ∧
    (DatasetView.ofBlob DefaultView).position = none ∧
    (DatasetView.ofBlob DefaultView).scale = none := by
  have h := claim_C5 "jrc_hela-2" outputDimensions []
    ⟨[], ⟨"inst", ⟨⟨none, none, none⟩⟩⟩, ⟨[], [], [], []⟩, "open"⟩ "thumb"
  exact ⟨h.2.1, h.2.2.2 (DatasetView.ofBlob DefaultView) (by rw [h.2.1]; exact List.mem_singleton.mpr rfl)⟩

lemma countKey_mapSet_same (l : List (String × ITag)) (k : String) (v : ITag) :
    countKey k (mapSet l k v) = if l.any (fun p => p.1 == k) then countKey k l else 1 := by
  unfold mapSet
  by_cases hany : l.any (fun p => p.1 == k)
  · rw [if_pos hany, if_pos hany]
    unfold countKey
    rw [List.countP_map]
    apply List.countP_congr
    intro p hp
    by_cases hp1 : p.1 == k <;> simp [hp1, Function.comp]
  · rw [if_neg hany, if_neg hany]
    unfold countKey
    rw [List.countP_append]
    have h0 : l.countP (fun p => p.1 == k) = 0 := by
      rw [List.countP_eq_zero]
      intro p hp hk
      exact hany (List.any_eq_true.mpr ⟨p, hp, hk⟩)
    simp [h0]

lemma countKey_mapSet_other (l : List (String × ITag)) (k k2 : String) (v : ITag)
    (hne : k ≠ k2) : countKey k (mapSet l k2 v) = countKey k l := by
  unfold mapSet
  by_cases hany : l.any (fun p => p.1 == k2)
  · rw [if_pos hany]
    unfold countKey
    rw [List.countP_map]
    apply List.countP_congr
    intro p hp
    by_cases hp1 : p.1 == k2
    · have : p.1 = k2 := by simpa using hp1
      simp [hp1, Function.comp, this, hne.symm, (by simpa using hne.symm : (k2 == k) = false)]
    · simp [hp1, Function.comp]
  · rw [if_neg hany]
    unfold countKey
    rw [List.countP_append]
    simp [(by simpa using hne.symm : (k2 == k) = false)]

lemma countKey_pos_of_any {l : List (String × ITag)} {k : String}
    (h : l.any (fun p => p.1 == k)) : 0 < countKey k l := by
  rw [countKey, List.countP_pos_iff]
  simpa [List.any_eq_true] using h

lemma countKey_mapSet_stable {l : List (String × ITag)} {k : String}
    (h1 : countKey k l = 1) (k2 : String) (v : ITag) :
    countKey k (mapSet l k2 v) = 1 := by
  by_cases hk : k2 = k
  · rw [hk, countKey_mapSet_same]
    have hany : l.any (fun p => p.1 == k) = true := by
      rw [List.any_eq_true]
      have hpos : 0 < countKey k l := by omega
      rw [countKey, List.countP_pos_iff] at hpos
      simpa using hpos
    rw [if_pos hany]
    exact h1
  · rw [countKey_mapSet_other l k k2 v (fun h => hk h.symm)]
    exact h1

lemma countKey_add_le_one {s : OSet ITag} (hs : ∀ k2, countKey k2 s.entries ≤ 1)
    (u : ITag) : ∀ k2, countKey k2 (s.add u).entries ≤ 1 := by
  intro k2
  by_cases hk : k2 = stringifyTag u
  · rw [hk, OSet.add, countKey_mapSet_same]
    split
    · exact hs (stringifyTag u)
    · exact le_refl 1
  · rw [OSet.add, countKey_mapSet_other _ _ _ _ hk]
    exact hs k2

lemma countKey_add_self {s : OSet ITag} (hs : ∀ k2, countKey k2 s.entries ≤ 1)
    (u : ITag) : countKey (stringifyTag u) (s.add u).entries = 1 := by
  rw [OSet.add, countKey_mapSet_same]
  by_cases hany : s.entries.any (fun p => p.1 == stringifyTag u)
  · rw [if_pos hany]
    have := countKey_pos_of_any hany
    have := hs (stringifyTag u)
    omega
  · rw [if_neg hany]

lemma countKey_foldl_add_stable {k : String} (ts : List ITag) :
    ∀ (s : OSet ITag), countKey k s.entries = 1 →
      countKey k ((ts.foldl OSet.add s).entries) = 1 := by
  induction ts with
  | nil => intro s h1; exact h1
  | cons u rest ih =>
    intro s h1
    exact ih (s.add u) (countKey_mapSet_stable h1 _ _)

/-- C7: tag-set insertion is idempotent under the canonical (stringified)
structural identity: starting from any tag set whose underlying map holds at
most one entry per key (every JS `Map` does), performing any sequence of
insertions in which the tag `t` occurs — in particular adding `t` twice, in
any order relative to other insertions — leaves exactly one entry under
`t`'s canonical key. -/
theorem claim_C7 (s : OSet ITag) (hs : ∀ k, countKey k s.entries ≤ 1)
    (t : ITag) (ts : List ITag) (ht : t ∈ ts) :
    countKey (stringifyTag t) ((ts.foldl OSet.add s).entries) = 1 := by
  induction ts generalizing s with
  | nil => cases ht
  | cons u rest ih =>
    rcases List.mem_cons.mp ht with rfl | hmem
    · by_cases hrest : t ∈ rest
      · exact ih (s.add t) (countKey_add_le_one hs t) hrest
      · exact countKey_foldl_add_stable rest (s.add t) (countKey_add_self hs t)
    · exact ih (s.add u) (countKey_add_le_one hs u) hmem

/-- C7 witness: adding the same concrete tag twice to the empty tag set
leaves exactly one entry under its canonical key. -/
theorem claim_C7_witness :
    countKey (stringifyTag ⟨"HHMI / Janelia", "Contributing institution"⟩)
      (([⟨"HHMI / Janelia", "Contributing institution"⟩,
         ⟨"HHMI / Janelia", "Contributing institution"⟩].foldl OSet.add
        (⟨[]⟩ : OSet ITag)).entries) = 1 :=
  claim_C7 ⟨[]⟩ (fun k => by simp [countKey])
    ⟨"HHMI / Janelia", "Contributing institution"⟩
    [⟨"HHMI / Janelia", "Contributing institution"⟩,
     ⟨"HHMI / Janelia", "Contributing institution"⟩] (by simp)

lemma escL_quote_split : ∀ (s t r r2 : List Char),
    escL s ++ '"' :: r = escL t ++ '"' :: r2 → s = t ∧ r = r2 := by
  intro s
  induction s with
  | nil =>
    intro t r r2 h
    cases t with
    | nil =>
      simp only [escL, List.nil_append, List.cons.injEq] at h
      exact ⟨rfl, h.2⟩
    | cons d ds =>
      simp only [escL, List.nil_append, List.append_assoc] at h
      unfold escChar at h
      by_cases hd : d = '"' ∨ d = '\\'
      · rw [if_pos hd] at h
        simp only [List.cons_append, List.cons.injEq] at h
        exact absurd h.1 (by decide)
      · rw [if_neg hd] at h
        simp only [List.singleton_append, List.cons.injEq] at h
        exact absurd h.1.symm (fun hh => hd (Or.inl hh))
  | cons c cs ih =>
    intro t r r2 h
    cases t with
    | nil =>
      simp only [escL, List.nil_append, List.append_assoc] at h
      unfold escChar at h
      by_cases hc : c = '"' ∨ c = '\\'
      · rw [if_pos hc] at h
        simp only [List.cons_append, List.cons.injEq] at h
        exact absurd h.1 (by decide)
      · rw [if_neg hc] at h
        simp only [List.singleton_append, List.cons.injEq] at h
        exact absurd h.1 (fun hh => hc (Or.inl hh))
    | cons d ds =>
      simp only [escL, List.append_assoc] at h
      unfold escChar at h
      by_cases hc : c = '"' ∨ c = '\\' <;> by_cases hd : d = '"' ∨ d = '\\'
      · rw [if_pos hc, if_pos hd] at h
        simp only [List.cons_append, List.nil_append, List.cons.injEq] at h
        obtain ⟨-, hcd, htail⟩ := h
        obtain ⟨hs, hr⟩ := ih ds r r2 htail
        exact ⟨by rw [hcd, hs], hr⟩
      · rw [if_pos hc, if_neg hd] at h
        simp only [List.cons_append, List.singleton_append, List.cons.injEq] at h
        exact absurd h.1.symm (fun hh => hd (Or.inr hh))
      · rw [if_neg hc, if_pos hd] at h
        simp only [List.cons_append, List.singleton_append, List.cons.injEq] at h
        exact absurd h.1 (fun hh => hc (Or.inr hh))
      · rw [if_neg hc, if_neg hd] at h
        simp only [List.singleton_append, List.cons.injEq] at h
        obtain ⟨hcd, htail⟩ := h
        obtain ⟨hs, hr⟩ := ih ds r r2 htail
        exact ⟨by rw [hcd, hs], hr⟩

lemma stringifyTag_inj {t t2 : ITag} (h : stringifyTag t = stringifyTag t2) : t = t2 := by
  have hd : (stringifyTag t).data = (stringifyTag t2).data := by rw [h]
  simp only [stringifyTag, jsonStringifyString, String.data_append, List.append_assoc] at hd
  have hcancel := List.append_cancel_left hd
  have h2 := List.append_cancel_left hcancel
  rw [List.singleton_append, List.singleton_append] at h2
  obtain ⟨hv, hrest⟩ := escL_quote_split _ _ _ _ h2
  have h3 := List.append_cancel_left hrest
  rw [List.singleton_append, List.singleton_append] at h3
  injection h3 with h3a h3b
  obtain ⟨hc, -⟩ := escL_quote_split _ _ _ _ h3b
  obtain ⟨v1, c1⟩ := t
  obtain ⟨v2, c2⟩ := t2
  simp only [ITag.mk.injEq]
  exact ⟨String.ext hv, String.ext hc⟩

lemma mem_mapSet {T : Type} {l : List (String × T)} {k : String} {v : T} {p : String × T}
    (hp : p ∈ mapSet l k v) : p ∈ l ∨ p = (k, v) := by
  unfold mapSet at hp
  split at hp
  · obtain ⟨q, hq, hfq⟩ := List.mem_map.mp hp
    by_cases hqk : q.1 == k
    · right
      rw [if_pos hqk] at hfq
      exact hfq.symm
    · left
      rw [if_neg hqk] at hfq
      rw [← hfq]
      exact hq
  · rcases List.mem_append.mp hp with h | h
    · exact Or.inl h
    · exact Or.inr (List.mem_singleton.mp h)

lemma coherent_empty : Coherent ⟨[]⟩ := by
  intro p hp
  simp at hp

lemma coherent_add {s : OSet ITag} (h : Coherent s) (u : ITag) : Coherent (s.add u) := by
  intro p hp
  rcases mem_mapSet hp with hmem | rfl
  · exact h p hmem
  · rfl

lemma coherent_foldl_tag (cat : String) : ∀ (l : List String) (s : OSet ITag),
    Coherent s → Coherent (l.foldl (fun acc val => acc.add ⟨val, cat⟩) s) := by
  intro l
  induction l with
  | nil => intro s h; exact h
  | cons a as ih => intro s h; exact ih (s.add ⟨a, cat⟩) (coherent_add h _)

/-- Under coherence, replacing at an existing canonical key is the identity:
the stored value already equals the newly added element. -/
lemma add_entries_of_any {s : OSet ITag} (hco : Coherent s) (u : ITag)
    (hany : s.entries.any (fun p => p.1 == stringifyTag u)) :
    (s.add u).entries = s.entries := by
  have hrw : (s.add u).entries =
      s.entries.map (fun p => if p.1 == stringifyTag u then (stringifyTag u, u) else p) := by
    unfold OSet.add mapSet
    rw [if_pos hany]
  rw [hrw]
  conv_rhs => rw [← List.map_id s.entries]
  apply List.map_congr_left
  intro p hp
  by_cases hpk : p.1 == stringifyTag u
  · rw [if_pos hpk]
    have h1 : p.1 = stringifyTag u := by simpa using hpk
    have h2 : p.2 = u := stringifyTag_inj (by rw [← hco p hp, h1])
    rw [← h2, ← hco p hp]
    rfl
  · rw [if_neg hpk]
    rfl

lemma add_entries_of_not_any {s : OSet ITag} (u : ITag)
    (hany : ¬ s.entries.any (fun p => p.1 == stringifyTag u)) :
    (s.add u).entries = s.entries ++ [(stringifyTag u, u)] := by
  unfold OSet.add mapSet
  rw [if_neg hany]

lemma filterCat_add_ne {s : OSet ITag} (hco : Coherent s) {u : ITag} {c : String}
    (hne : u.category ≠ c) : filterCat c (s.add u) = filterCat c s := by
  by_cases hany : s.entries.any (fun p => p.1 == stringifyTag u)
  · unfold filterCat
    rw [add_entries_of_any hco u hany]
  · unfold filterCat
    rw [add_entries_of_not_any u hany, List.filter_append]
    have hcat : (u.category == c) = false := by simpa using hne
    have hsing : List.filter (fun p => p.2.category == c) [(stringifyTag u, u)] = [] := by
      simp [List.filter, hcat]
    rw [hsing, List.append_nil]

lemma filterCat_add_eq {s : OSet ITag} (hco : Coherent s) {u : ITag} {c : String}
    (hempty : filterCat c s = []) (hu : u.category = c) :
    filterCat c (s.add u) = [u] := by
  have hany : ¬ s.entries.any (fun p => p.1 == stringifyTag u) := by
    intro hany
    obtain ⟨p, hp, hpk⟩ := List.any_eq_true.mp hany
    have h1 : p.1 = stringifyTag u := by simpa using hpk
    have h2 : p.2 = u := stringifyTag_inj (by rw [← hco p hp, h1])
    have hmem : p ∈ List.filter (fun p => p.2.category == c) s.entries := by
      rw [List.mem_filter]
      exact ⟨hp, by simp [h2, hu]⟩
    have hmem2 : p.2 ∈ filterCat c s := List.mem_map.mpr ⟨p, hmem, rfl⟩
    rw [hempty] at hmem2
    simp at hmem2
  unfold filterCat
  rw [add_entries_of_not_any u hany, List.filter_append]
  have hfl : List.filter (fun p => p.2.category == c) s.entries = [] := by
    have hh : filterCat c s = [] := hempty
    unfold filterCat at hh
    exact List.map_eq_nil_iff.mp hh
  have hcat : (u.category == c) = true := by simpa using hu
  rw [hfl]
  simp [List.filter, hcat]

lemma filterCat_foldl_tag_ne {cat c : String} (hne : cat ≠ c) :
    ∀ (l : List String) (s : OSet ITag), Coherent s →
      filterCat c (l.foldl (fun acc val => acc.add ⟨val, cat⟩) s) = filterCat c s := by
  intro l
  induction l with
  | nil => intro s _; rfl
  | cons a as ih =>
    intro s hco
    rw [List.foldl_cons, ih (s.add ⟨a, cat⟩) (coherent_add hco _),
      filterCat_add_ne hco (show (⟨a, cat⟩ : ITag).category ≠ c from hne)]

lemma makeTags_decompose (descr : DatasetMetadata) : makeTags descr =
    (if descr.imaging.gridSpacing.values.y.isSome || descr.imaging.gridSpacing.values.x.isSome
     then (preTags descr).add
       ⟨jsToString (jsMin (jsValOfOpt descr.imaging.gridSpacing.values.y)
          (jsValOfOpt descr.imaging.gridSpacing.values.x)), "Lateral voxel size"⟩
     else preTags descr).add ⟨descr.softwareAvailability, "Software Availability"⟩ := rfl

lemma coherent_preTags (descr : DatasetMetadata) : Coherent (preTags descr) := by
  have h1 := coherent_add coherent_empty
    (⟨descr.imaging.institution, "Acquisition institution"⟩ : ITag)
  have h2 := coherent_foldl_tag "Contributing institution" descr.institution _ h1
  have h3 := coherent_foldl_tag "Sample: Organism" descr.sample.organism _ h2
  have h4 := coherent_foldl_tag "Sample: Type" descr.sample.type _ h3
  have h5 := coherent_foldl_tag "Sample: Subtype" descr.sample.subtype _ h4
  have h6 := coherent_foldl_tag "Sample: Treatment" descr.sample.treatment _ h5
  unfold preTags
  rcases hz : descr.imaging.gridSpacing.values.z with _ | q
  · simpa [hz] using h6
  · simp only [hz]
    exact coherent_add h6 _

lemma filterCat_lateral_preTags (descr : DatasetMetadata) :
    filterCat "Lateral voxel size" (preTags descr) = [] := by
  have h1 := coherent_add coherent_empty
    (⟨descr.imaging.institution, "Acquisition institution"⟩ : ITag)
  have h2 := coherent_foldl_tag "Contributing institution" descr.institution _ h1
  have h3 := coherent_foldl_tag "Sample: Organism" descr.sample.organism _ h2
  have h4 := coherent_foldl_tag "Sample: Type" descr.sample.type _ h3
  have h5 := coherent_foldl_tag "Sample: Subtype" descr.sample.subtype _ h4
  have h6 := coherent_foldl_tag "Sample: Treatment" descr.sample.treatment _ h5
  have f1 : filterCat "Lateral voxel size"
      ((⟨[]⟩ : OSet ITag).add ⟨descr.imaging.institution, "Acquisition institution"⟩) = [] := by
    rw [filterCat_add_ne coherent_empty
      (by decide : ("Acquisition institution" : String) ≠ "Lateral voxel size")]
    rfl
  have f2 := filterCat_foldl_tag_ne
    (show "Contributing institution" ≠ "Lateral voxel size" by decide) descr.institution _ h1
  have f3 := filterCat_foldl_tag_ne
    (show "Sample: Organism" ≠ "Lateral voxel size" by decide) descr.sample.organism _ h2
  have f4 := filterCat_foldl_tag_ne
    (show "Sample: Type" ≠ "Lateral voxel size" by decide) descr.sample.type _ h3
  have f5 := filterCat_foldl_tag_ne
    (show "Sample: Subtype" ≠ "Lateral voxel size" by decide) descr.sample.subtype _ h4
  have f6 := filterCat_foldl_tag_ne
    (show "Sample: Treatment" ≠ "Lateral voxel size" by decide) descr.sample.treatment _ h5
  have hpre := f1
  rw [← f2] at hpre
  rw [← f3] at hpre
  rw [← f4] at hpre
  rw [← f5] at hpre
  rw [← f6] at hpre
  unfold preTags
  rcases hz : descr.imaging.gridSpacing.values.z with _ | q
  · simpa [hz] using hpre
  · simp only [hz]
    rw [filterCat_add_ne h6
      (by decide : ("Axial voxel size" : String) ≠ "Lateral voxel size")]
    exact hpre

/-- C6 (amended): the lateral-voxel-size tag is present exactly when at
least one of the x/y grid-spacing components is present.  When both are
present its value is the stringified minimum; when exactly one is present
the value is the string `"NaN"` (JS `Math.min` with an `undefined` argument),
NOT the present value. -/
theorem claim_C6 (descr : DatasetMetadata) :
    (∀ px py : ℚ, descr.imaging.gridSpacing.values.x = some px →
      descr.imaging.gridSpacing.values.y = some py →
      filterCat "Lateral voxel size" (makeTags descr) =
        [⟨toString (min py px), "Lateral voxel size"⟩]) ∧
    (descr.imaging.gridSpacing.values.x = none →
      descr.imaging.gridSpacing.values.y = none →
      filterCat "Lateral voxel size" (makeTags descr) = []) ∧
    (∀ px : ℚ, descr.imaging.gridSpacing.values.x = some px →
      descr.imaging.gridSpacing.values.y = none →
      filterCat "Lateral voxel size" (makeTags descr) =
        [⟨"NaN", "Lateral voxel size"⟩]) ∧
    (∀ py : ℚ, descr.imaging.gridSpacing.values.x = none →
      descr.imaging.gridSpacing.values.y = some py →
      filterCat "Lateral voxel size" (makeTags descr) =
        [⟨"NaN", "Lateral voxel size"⟩]) := by
  have hco := coherent_preTags descr
  have hemp := filterCat_lateral_preTags descr
  refine ⟨?_, ?_, ?_, ?_⟩
  · intro px py hx hy
    have hlat := filterCat_add_eq
      (u := ⟨jsToString (jsMin (jsValOfOpt (some py)) (jsValOfOpt (some px))),
        "Lateral voxel size"⟩) hco hemp rfl
    rw [makeTags_decompose, hx, hy]
    simp only [Option.isSome_some, Bool.true_or]
    rw [if_pos trivial,
      filterCat_add_ne (coherent_add hco _)
        (by decide : ("Software Availability" : String) ≠ "Lateral voxel size"),
      hlat]
    rfl
  · intro hx hy
    rw [makeTags_decompose, hx, hy]
    simp only [Option.isSome_none, Bool.or_self]
    rw [if_neg (by decide : ¬ ((false : Bool) = true)),
      filterCat_add_ne hco
        (by decide : ("Software Availability" : String) ≠ "Lateral voxel size")]
    exact hemp
  · intro px hx hy
    have hlat := filterCat_add_eq
      (u := ⟨jsToString (jsMin (jsValOfOpt none) (jsValOfOpt (some px))),
        "Lateral voxel size"⟩) hco hemp rfl
    rw [makeTags_decompose, hx, hy]
    simp only [Option.isSome_some, Option.isSome_none, Bool.false_or]
    rw [if_pos trivial,
      filterCat_add_ne (coherent_add hco _)
        (by decide : ("Software Availability" : String) ≠ "Lateral voxel size"),
      hlat]
    rfl
  · intro py hx hy
    have hlat := filterCat_add_eq
      (u := ⟨jsToString (jsMin (jsValOfOpt (some py)) (jsValOfOpt none)),
        "Lateral voxel size"⟩) hco hemp rfl
    rw [makeTags_decompose, hx, hy]
    simp only [Option.isSome_some, Option.isSome_none, Bool.true_or]
    rw [if_pos trivial,
      filterCat_add_ne (coherent_add hco _)
        (by decide : ("Software Availability" : String) ≠ "Lateral voxel size"),
      hlat]
    rfl

/-- C6 witness: the spec's scenario `{x: 8, y: 4}` with no z — the lateral
tag value is `"4"` (the stringified minimum). -/
theorem claim_C6_witness :
    filterCat "Lateral voxel size" (makeTags ⟨["HHMI"], ⟨"inst", ⟨⟨some 8, some 4, none⟩⟩⟩,
      ⟨["mouse"], [], [], []⟩, "open"⟩) = [⟨"4", "Lateral voxel size"⟩] := by
  have h := (claim_C6 ⟨["HHMI"], ⟨"inst", ⟨⟨some 8, some 4, none⟩⟩⟩,
    ⟨["mouse"], [], [], []⟩, "open"⟩).1 8 4 rfl rfl
  have hmin : min (4 : ℚ) 8 = 4 := by norm_num
  rw [h, hmin]
  decide

/-- C6 counterexample: with `{x: 8}` present and `y` absent, the claim as
stated says the lateral tag's value degenerates to `"8"`; the code instead
computes `Math.min(undefined, 8) = NaN` and stores the tag value `"NaN"`
(and no tag with value `"8"` exists). -/
theorem claim_C6_counterexample :
    filterCat "Lateral voxel size" (makeTags ⟨["HHMI"], ⟨"inst", ⟨⟨some 8, none, none⟩⟩⟩,
      ⟨["mouse"], [], [], []⟩, "open"⟩) = [⟨"NaN", "Lateral voxel size"⟩] ∧
    (makeTags ⟨["HHMI"], ⟨"inst", ⟨⟨some 8, none, none⟩⟩⟩,
      ⟨["mouse"], [], [], []⟩, "open"⟩).has ⟨"8", "Lateral voxel size"⟩ = false := by
  constructor
  · decide
  · decide

lemma legacyStep_eq {D I R : Type} (gd : String → Option D) (gi : String → Option I)
    (build : String → Option D → I → Except String R) (acc : List (String × R))
    (key : String) :
    legacyStep gd gi build acc key = acc ++ legacyNew gd gi build key := by
  unfold legacyStep legacyNew
  rcases h : gi key with _ | i
  · simp [h]
  · rcases hb : build key (gd key) i with e | ds <;> simp [h, hb]

lemma foldl_legacyStep {D I R : Type} (gd : String → Option D) (gi : String → Option I)
    (build : String → Option D → I → Except String R) :
    ∀ (keys : List String) (acc : List (String × R)),
      keys.foldl (legacyStep gd gi build) acc =
        acc ++ keys.foldl (legacyStep gd gi build) [] := by
  intro keys
  induction keys with
  | nil => intro acc; simp
  | cons a as ih =>
    intro acc
    rw [List.foldl_cons, List.foldl_cons, ih (legacyStep gd gi build acc a),
      ih (legacyStep gd gi build [] a), legacyStep_eq, legacyStep_eq]
    simp

lemma mem_makeDatasetsLegacy {D I R : Type} {gd : String → Option D}
    {gi : String → Option I} {build : String → Option D → I → Except String R}
    {k : String} {d : R} :
    ∀ {keys : List String}, (k, d) ∈ makeDatasetsLegacy keys gd gi build ↔
      k ∈ keys ∧ ∃ i, gi k = some i ∧ build k (gd k) i = Except.ok d := by
  intro keys
  induction keys with
  | nil =>
    simp [makeDatasetsLegacy]
  | cons a as ih =>
    unfold makeDatasetsLegacy at ih ⊢
    rw [List.foldl_cons, foldl_legacyStep, legacyStep_eq]
    simp only [List.nil_append, List.mem_append, ih, List.mem_cons]
    constructor
    · rintro (hnew | ⟨hmem, hi⟩)
      · unfold legacyNew at hnew
        rcases hgi : gi a with _ | i
        · simp [hgi] at hnew
        · simp only [hgi] at hnew
          rcases hb : build a (gd a) i with e | ds
          · simp [hb] at hnew
          · simp only [hb, List.mem_singleton, Prod.mk.injEq] at hnew
            obtain ⟨rfl, rfl⟩ := hnew
            exact ⟨Or.inl rfl, i, hgi, hb⟩
      · exact ⟨Or.inr hmem, hi⟩
    · rintro ⟨rfl | hmem, i, hgi, hb⟩
      · left
        simp [legacyNew, hgi, hb]
      · exact Or.inr ⟨hmem, i, hgi, hb⟩

/-- C8 (amended): if fetching the catalog index fails, `makeDatasets` returns
an empty map (confirmed).  Per-entry isolation holds only in the legacy
loader: there, a dataset appears in the result exactly when its index loads
and its construction succeeds, so a failing entry is omitted while the
others are still constructed.  In the current `makeDatasets`, a single
failing per-entry fetch rejects the whole operation (see the
counterexample). -/
theorem claim_C8 :
    (∀ (e : String) (get : String → Except String ManifestEntry),
      makeDatasets (Except.error e) get = Except.ok []) ∧
    (∀ {D I R : Type} (keys : List String) (gd : String → Option D)
        (gi : String → Option I) (build : String → Option D → I → Except String R)
        (k : String) (d : R),
      (k, d) ∈ makeDatasetsLegacy keys gd gi build →
      k ∈ keys ∧ ∃ i, gi k = some i ∧ build k (gd k) i = Except.ok d) ∧
    (∀ {D I R : Type} (keys : List String) (gd : String → Option D)
        (gi : String → Option I) (build : String → Option D → I → Except String R)
        (k : String) (i : I) (d : R),
      k ∈ keys → gi k = some i → build k (gd k) i = Except.ok d →
      (k, d) ∈ makeDatasetsLegacy keys gd gi build) := by
  refine ⟨fun e get => rfl, ?_, ?_⟩
  · intro D I R keys gd gi build k d hmem
    exact mem_makeDatasetsLegacy.mp hmem
  · intro D I R keys gd gi build k i d hk hgi hb
    exact mem_makeDatasetsLegacy.mpr ⟨hk, i, hgi, hb⟩

/-- C8 witness: a failed index fetch yields the empty catalog, and in the
legacy loader a dataset whose sibling fails to build is still constructed. -/
theorem claim_C8_witness :
    makeDatasets (Except.error "offline") (fun _ => Except.error "unused") =
      Except.ok [] ∧
    ("b", 42) ∈ makeDatasetsLegacy ["a", "b"] (fun _ => (none : Option Unit))
      (fun k => if k == "b" then some 0 else some 1)
      (fun k _ _ => if k == "b" then Except.ok 42 else Except.error "parse failure") := by
  constructor
  · exact claim_C8.1 "offline" (fun _ => Except.error "unused")
  · exact claim_C8.2.2 ["a", "b"] (fun _ => (none : Option Unit))
      (fun k => if k == "b" then some 0 else some 1)
      (fun k _ _ => if k == "b" then Except.ok 42 else Except.error "parse failure")
      "b" 0 42 (by decide) rfl rfl

/-- C8 counterexample: the claim as stated fails on the current
`makeDatasets`: with two entries where only `"a"`'s manifest fetch fails,
the whole operation rejects (`Promise.all` with no per-entry catch), so
`"b"` is NOT constructed and no (partial) map is returned. -/
theorem claim_C8_counterexample :
    makeDatasets (Except.ok ["a", "b"])
      (fun k => if k == "a" then Except.error "fetch failed"
        else Except.ok ⟨"thumb", ⟨[], ⟨[], ⟨"i", ⟨⟨none, none, none⟩⟩⟩, ⟨[], [], [], []⟩,
          "open"⟩, []⟩⟩) = Except.error "fetch failed" := rfl

/-- C10 (amended): a layer-change event that would uncheck every box is
skipped (the state is returned unchanged), and consequently layer-change
events preserve "at least one layer checked".  The stronger claim that every
reachable state is nonempty fails: the initial state itself can have zero
checked layers (see the counterexample). -/
theorem claim_C10 :
    (∀ (s : List (String × Bool)) (e : CheckEvent),
      (mapSet s e.name e.checked).all (fun p => p.2 == false) = true →
      handleLayerChange s e = s) ∧
    (∀ (s : List (String × Bool)) (e : CheckEvent),
      s.any (fun p => p.2 == true) = true →
      (handleLayerChange s e).any (fun p => p.2 == true) = true) := by
  constructor
  · intro s e hall
    simp only [handleLayerChange]
    rw [hall]
    rfl
  · intro s e hany
    simp only [handleLayerChange]
    by_cases hall : (mapSet s e.name e.checked).all (fun p => p.2 == false) = true
    · rw [hall]
      exact hany
    · have hall2 : (mapSet s e.name e.checked).all (fun p => p.2 == false) = false :=
        Bool.eq_false_iff.mpr hall
      rw [hall2]
      have hnot : ¬ (∀ p ∈ mapSet s e.name e.checked, (p.2 == false) = true) := by
        rw [← List.all_eq_true]
        exact hall
      push_neg at hnot
      obtain ⟨p, hp, hpf⟩ := hnot
      refine List.any_eq_true.mpr ⟨p, hp, ?_⟩
      cases hpv : p.2
      · exact absurd (by simp [hpv]) hpf
      · simp

/-- C10 witness: the amended theorem at a concrete one-layer state — the
event unchecking the only checked layer is ignored and the selection stays
nonempty. -/
theorem claim_C10_witness :
    handleLayerChange [("fibsem-uint8", true)] ⟨"fibsem-uint8", false⟩ =
      [("fibsem-uint8", true)] ∧
    (handleLayerChange [("fibsem-uint8", true)] ⟨"fibsem-uint8", false⟩).any
      (fun p => p.2 == true) = true := by
  constructor
  · exact claim_C10.1 [("fibsem-uint8", true)] ⟨"fibsem-uint8", false⟩ (by decide)
  · exact claim_C10.2 [("fibsem-uint8", true)] ⟨"fibsem-uint8", false⟩ (by decide)

/-- C10 counterexample: the claim as stated fails — for a dataset whose only
view is the synthesized default (empty source list), the initial selection
state is reachable and has zero layers checked. -/
theorem claim_C10_counterexample :
    ReachableLayerState
      (Dataset.make "ds" outputDimensions
        [("vol",
          ⟨"u0", "vol", ⟨["x", "y", "z"], ["nm", "nm", "nm"], [0, 0, 0], [4, 4, 4]⟩, "em",
           "scalar", "n5", ⟨⟨0, 255, 10, 200⟩, false, some "white"⟩, "d0", []⟩)]
        ⟨[], ⟨"i", ⟨⟨none, none, none⟩⟩⟩, ⟨[], [], [], []⟩, "open"⟩ "thumb" [])
      (layerCheckStateInit
        (Dataset.make "ds" outputDimensions
          [("vol",
            ⟨"u0", "vol", ⟨["x", "y", "z"], ["nm", "nm", "nm"], [0, 0, 0], [4, 4, 4]⟩, "em",
             "scalar", "n5", ⟨⟨0, 255, 10, 200⟩, false, some "white"⟩, "d0", []⟩)]
          ⟨[], ⟨"i", ⟨⟨none, none, none⟩⟩⟩, ⟨[], [], [], []⟩, "open"⟩ "thumb" [])) ∧
    (layerCheckStateInit
      (Dataset.make "ds" outputDimensions
        [("vol",
          ⟨"u0", "vol", ⟨["x", "y", "z"], ["nm", "nm", "nm"], [0, 0, 0], [4, 4, 4]⟩, "em",
           "scalar", "n5", ⟨⟨0, 255, 10, 200⟩, false, some "white"⟩, "d0", []⟩)]
        ⟨[], ⟨"i", ⟨⟨none, none, none⟩⟩⟩, ⟨[], [], [], []⟩, "open"⟩ "thumb" [])).any
      (fun p => p.2 == true) = false := by
  exact ⟨ReachableLayerState.init, rfl⟩

end OpenOrganelle
